import Mathlib

set_option maxHeartbeats 1000000
set_option maxRecDepth 100000

deriving instance DecidableEq for Except

namespace TP2DG

/-!
Shallow embedding of the talkplaydata-2 conversation-generation core:
the resilient structured-field extractor (`tp2dg/components/utils.py`),
the recommendation turn logic (`tp2dg/components/recsys_llm.py`), the
orchestrator conversation loop (`tp2dg/conversation_orchestrator.py`),
and the conversation-goal sampler (`tp2dg/entities/conversation_goal.py`).
Python strings are modelled as `List Char`; Python `\s`, `\w` and
`str.strip` are modelled on their ASCII subsets (all texts the claims
touch are ASCII).
-/

/-- The backtick character (code 96). -/
def backtickChar : Char := Char.ofNat 96

/-- The double-quote character (code 34). -/
def dquoteChar : Char := Char.ofNat 34

/-- The single-quote character (code 39). -/
def squoteChar : Char := Char.ofNat 39

/-- Python `\s` on ASCII: space, tab, newline, carriage return, vertical tab, form feed. -/
def pyWS (c : Char) : Bool :=
  c = ' ' || c = '\t' || c = '\n' || c = '\r' || c = Char.ofNat 11 || c = Char.ofNat 12

/-- Python `\w` on ASCII: letters, digits, underscore. -/
def isWordChar (c : Char) : Bool := c.isAlphanum || c = '_'

/-- Python `str.strip()`. -/
def pyStrip (l : List Char) : List Char :=
  ((l.dropWhile pyWS).reverse.dropWhile pyWS).reverse

/-- Drop one leading newline, if present (the `\n?` part of the fence pattern). -/
def dropOneNl : List Char → List Char
  | [] => []
  | c :: r => if c = '\n' then r else c :: r

theorem dropOneNl_length_le (l : List Char) : (dropOneNl l).length ≤ l.length := by
  cases l with
  | nil => simp [dropOneNl]
  | cons c r =>
    simp only [dropOneNl]
    split <;> simp

theorem length_dropWhile_le (p : Char → Bool) (l : List Char) :
    (l.dropWhile p).length ≤ l.length := by
  induction l with
  | nil => simp
  | cons a t ih =>
    rw [List.dropWhile_cons]
    split
    · simpa using Nat.le_succ_of_le ih
    · simp

/-- One pass of `re.sub(r"```\w*\n?", "", text)` (utils.py line 55), with a
structural fuel argument (each step consumes at least one character, so fuel
equal to the text length never runs out): scanning left to right, each
occurrence of three backticks followed by a maximal run of word characters
and an optional newline is removed, and scanning resumes after the removed
part. -/
def stripFencesAux : Nat → List Char → List Char
  | 0, l => l
  | _, [] => []
  | fuel + 1, c :: rest =>
    if c = backtickChar ∧ rest.take 2 = [backtickChar, backtickChar] then
      stripFencesAux fuel (dropOneNl ((rest.drop 2).dropWhile isWordChar))
    else
      c :: stripFencesAux fuel rest

/-- `re.sub(r"```\w*\n?", "", text)`. -/
def stripFences (l : List Char) : List Char := stripFencesAux l.length l

/-- `re.sub` with a fixed literal pattern `pat`: remove every non-overlapping,
left-to-right occurrence of `pat` (utils.py line 56 uses this with `"\n```"`);
same fuel convention as `stripFencesAux`. -/
def removeSubAux (pat : List Char) : Nat → List Char → List Char
  | 0, l => l
  | _, [] => []
  | fuel + 1, c :: rest =>
    if pat.isPrefixOf (c :: rest) ∧ pat ≠ [] then
      removeSubAux pat fuel ((c :: rest).drop pat.length)
    else c :: removeSubAux pat fuel rest

/-- `re.sub` removing every occurrence of the literal `pat`. -/
def removeSub (pat : List Char) (l : List Char) : List Char := removeSubAux pat l.length l

/-- The literal pattern of the second substitution in utils.py line 56. -/
def nlFencePat : List Char := '\n' :: backtickChar :: backtickChar :: [backtickChar]

/-- Lines 55–57 of `components/utils.py`: strip fence markers, remove
`"\n```"` occurrences, then `str.strip()`. -/
def cleanText (text : List Char) : List Char :=
  pyStrip (removeSub nlFencePat (stripFences text))

/-- The pattern `key\s*:` matches at position `p` of `cl`: `key` occurs at
`p` and the first non-whitespace character after it is a colon. -/
def keyColonAt (cl key : List Char) (p : Nat) : Bool :=
  key.isPrefixOf (cl.drop p) &&
    (match ((cl.drop p).drop key.length).dropWhile pyWS with
      | c :: _ => c = ':'
      | [] => false)

/-- `re.MULTILINE` `^`: position `p` is the start of the string or follows a newline. -/
def lineStart (cl : List Char) (p : Nat) : Bool :=
  p = 0 || cl.getD (p - 1) ' ' = '\n'

/-- Leftmost position in `0 .. n-1` satisfying `pred`. -/
def findFirstPos (n : Nat) (pred : Nat → Bool) : Option Nat :=
  (List.range n).find? pred

/-- Lines 59–65 of utils.py, for one expected key: the line-anchored pattern
`^key\s*:` is searched first over the whole cleaned text, then the unanchored
one; the first match's start offset is recorded. -/
def findKeyPos (cl key : List Char) : Option Nat :=
  match findFirstPos (cl.length + 1) (fun p => lineStart cl p && keyColonAt cl key p) with
  | some p => some p
  | none => findFirstPos (cl.length + 1) (fun p => keyColonAt cl key p)

/-- The `key_positions` list of utils.py lines 58–65, in expected-key order. -/
def keyPositions (cl : List Char) (expected : List String) : List (Nat × String) :=
  expected.filterMap (fun key => (findKeyPos cl key.data).map (fun p => (p, key)))

/-- Python string `<` (lexicographic by code point). -/
def strLtChars : List Char → List Char → Bool
  | [], [] => false
  | [], _ :: _ => true
  | _ :: _, [] => false
  | a :: xs, b :: ys => if a = b then strLtChars xs ys else decide (a < b)

/-- Python tuple `<` on `(position, key)` pairs. -/
def pairLt (x y : Nat × String) : Bool :=
  x.1 < y.1 || (x.1 = y.1 && strLtChars x.2.data y.2.data)

/-- Insert into a list kept in descending tuple order. -/
def insertDesc (x : Nat × String) : List (Nat × String) → List (Nat × String)
  | [] => [x]
  | y :: ys => if pairLt x y then y :: insertDesc x ys else x :: y :: ys

/-- `key_positions.sort(reverse=True)` (utils.py line 66). -/
def sortDesc (l : List (Nat × String)) : List (Nat × String) :=
  l.foldr insertDesc []

/-- Capture windows of utils.py lines 67–72: walking the descending position
list, each field's window runs from its own offset to the previous (larger)
offset, the first one to the end of the text. -/
def windows : List (Nat × String) → Nat → List (String × Nat × Nat)
  | [], _ => []
  | (p, k) :: rest, stop => (k, p, stop) :: windows rest p

/-- Python slice `cl[a:b]`. -/
def slice (cl : List Char) (a b : Nat) : List Char := (cl.take b).drop a

/-- The pattern `^key\s*:\s*(.+)` (MULTILINE, DOTALL) matched at position `q`
of `sec`; on success, the raw text of capture group 1. The greedy/backtrack
behaviour reduces to: there must be at least one character after the colon;
group 1 is the rest with its leading whitespace removed, except that a rest
consisting only of whitespace yields its final character. -/
def keyValueAt (sec key : List Char) (q : Nat) : Option (List Char) :=
  if lineStart sec q && key.isPrefixOf (sec.drop q) then
    match ((sec.drop q).drop key.length).dropWhile pyWS with
    | c :: rest =>
      if c = ':' then
        if rest = [] then none
        else
          match rest.dropWhile pyWS with
          | [] => some (rest.drop (rest.length - 1))
          | l => some l
      else none
    | [] => none
  else none

/-- `re.search` of `^key\s*:\s*(.+)` within a window (utils.py lines 73–74):
the leftmost matching position wins. -/
def firstKeyValue (sec key : List Char) : Option (List Char) :=
  match findFirstPos (sec.length + 1) (fun q => (keyValueAt sec key q).isSome) with
  | some q => keyValueAt sec key q
  | none => none

/-- Remove one leading quote character (double or single), if present. -/
def dropLeadQuote : List Char → List Char
  | [] => []
  | c :: rest => if c = dquoteChar || c = squoteChar then rest else c :: rest

/-- `re.sub(r'^["\']|["\']$', "", value)` (utils.py line 77). -/
def stripQuotes (l : List Char) : List Char :=
  (dropLeadQuote ((dropLeadQuote l).reverse)).reverse

/-- Python `value.split("\n")`. -/
def splitNl : List Char → List (List Char)
  | [] => [[]]
  | c :: rest =>
    let r := splitNl rest
    if c = '\n' then [] :: r
    else
      match r with
      | h :: t => (c :: h) :: t
      | [] => [[c]]

/-- Python `" ".join(lines)`. -/
def joinSpace : List (List Char) → List Char
  | [] => []
  | [l] => l
  | l :: rest => l ++ ' ' :: joinSpace rest

/-- `re.sub(r"\s+", " ", value)` (utils.py line 85): each maximal whitespace
run becomes a single space; same fuel convention as `stripFencesAux`. -/
def collapseWsAux : Nat → List Char → List Char
  | 0, l => l
  | _, [] => []
  | fuel + 1, c :: rest =>
    if pyWS c then ' ' :: collapseWsAux fuel (rest.dropWhile pyWS)
    else c :: collapseWsAux fuel rest

/-- `re.sub(r"\s+", " ", value)`. -/
def collapseWs (l : List Char) : List Char := collapseWsAux l.length l

/-- Lines 76–87 of utils.py: strip, unquote, join nonempty stripped lines
with single spaces, collapse whitespace runs, strip again; `none` when the
final value is empty (the `if value:` guard). -/
def processValue (raw : List Char) : Option (List Char) :=
  let v1 := stripQuotes (pyStrip raw)
  let lines := (splitNl v1).map pyStrip
  let v2 := joinSpace (lines.filter (fun l => l ≠ []))
  let v3 := pyStrip (collapseWs v2)
  if v3 = [] then none else some v3

/-- Python `dict` assignment `d[k] = v`: overwrite in place, else append. -/
def dictInsert (d : List (String × String)) (k v : String) : List (String × String) :=
  if d.any (fun kv => kv.1 = k) then
    d.map (fun kv => if kv.1 = k then (k, v) else kv)
  else d ++ [(k, v)]

/-- Python `d.get(k, dflt)`. -/
def dictGet (d : List (String × String)) (k : String) (dflt : String) : String :=
  match d.find? (fun kv => kv.1 = k) with
  | some kv => kv.2
  | none => dflt

/-- The body of the extraction loop (utils.py lines 67–87) for one located
field `w = (key, window start, window stop)`: extract and process the value
within the window, and record it when nonempty. -/
def extractStep (cl : List Char) (d : List (String × String)) (w : String × Nat × Nat) :
    List (String × String) :=
  match firstKeyValue (slice cl w.2.1 w.2.2) w.1.data with
  | some raw =>
    match processValue raw with
    | some v => dictInsert d w.1 (String.mk v)
    | none => d
  | none => d

/-- `tp2dg.components.utils.robust_parse_yaml_response` (utils.py lines 53–88),
returning the result dict as an insertion-ordered association list. -/
def robust_parse_yaml_response (text : String) (expected_keys : List String) :
    List (String × String) :=
  let cl := cleanText text.data
  (windows (sortDesc (keyPositions cl expected_keys)) cl.length).foldl (extractStep cl) []

/-- Python `needle in hay` on strings: `needle` occurs as a contiguous
substring of `hay`. -/
def containsSub (needle hay : List Char) : Bool :=
  (List.range (hay.length + 1)).any (fun p => needle.isPrefixOf (hay.drop p))

/-! ### Entities: `tp2dg/entities/track.py` and `tp2dg/entities/turns.py` -/

/-- `tp2dg.entities.track.Track` (dataclass fields). -/
structure Track where
  track_id : String
  title : String
  artist : String
  album : Option String := none
  lyrics : Option String := none
  audio_path : Option String := none
  image_path : Option String := none
  tags : List String := []
deriving DecidableEq

/-- Modelled from the spec: `tp2dg/entities/reponse_code.py` is imported by
`turns.py` and `recsys_llm.py` but is not under `src/`; the spec's §7 names
the success and `NoMatchingTrack` outcomes for a recsys turn. -/
inductive RecsysTurnCode where
  | SUCCESS
  | NO_TRACK_FOUND
deriving DecidableEq

/-- Modelled from the spec: listener-turn outcome codes from the missing
`reponse_code.py`; only the success code is used by the embedded code paths. -/
inductive ListenerTurnCode where
  | SUCCESS
deriving DecidableEq

/-- `tp2dg.entities.turns.ListenerTurn`. -/
structure ListenerTurn where
  turn_number : Nat
  prompt : String
  thought : String
  goal_progress_assessment : Option String
  message : String
  success : Bool := true
  code : ListenerTurnCode := ListenerTurnCode.SUCCESS
deriving DecidableEq

/-- `tp2dg.entities.turns.RecsysTurn`. -/
structure RecsysTurn where
  turn_number : Nat
  prompt : String
  thought : String
  track : Option Track
  message : String
  success : Bool := true
  code : RecsysTurnCode := RecsysTurnCode.SUCCESS
deriving DecidableEq

/-- `tp2dg.entities.turns.ConversationTurn`. -/
structure ConversationTurn where
  turn_number : Nat
  listener_turn : ListenerTurn
  recsys_turn : RecsysTurn
deriving DecidableEq

/-- `tp2dg.entities.turns.ConversationTurns.used_track_ids`. -/
def used_track_ids (conv : List ConversationTurn) : List String :=
  (conv.filterMap (fun tr => tr.recsys_turn.track)).map (fun t => t.track_id)

/-! ### `tp2dg/components/recsys_llm.py` -/

/-- `recsys_following_turns.response_expected_fields`
(`tp2dg/prompts/recsys_llm/query.py` line 8). -/
def recsys_following_turns_fields : List String := ["thought", "track_id", "message"]

/-- The instantiation of the `recsys_following_turns` template
(`tp2dg/prompts/recsys_llm/query.py`). The literal instruction text is
immaterial to every claim (the turn records merely store the prompt), so the
template body is abbreviated; the prompt remains a deterministic function of
the template parameters, as `PromptTemplate.format` is. -/
def recsys_following_turns_format (turn_num : Nat) (used : List String)
    (listener_message preferred_language : String) : String :=
  "## Turn " ++ toString turn_num ++ " used: " ++ String.intercalate ", " used ++
    " listener: " ++ listener_message ++ " lang: " ++ preferred_language

/-- `RecsysLLM.get_recommendation_with_thought` (recsys_llm.py lines 39–87)
from the model reply text onward: the model call itself is external, so the
reply text is an input. -/
def get_recommendation_with_thought (response_text : String) (turn_num : Nat)
    (conversation_turns : List ConversationTurn) (available_tracks : List Track)
    (listener_message preferred_language : String) : RecsysTurn :=
  let used := used_track_ids conversation_turns
  let prompt := recsys_following_turns_format turn_num used listener_message preferred_language
  let parsed := robust_parse_yaml_response response_text recsys_following_turns_fields
  let thought := dictGet parsed "thought" "Unknown thought"
  let track_id := dictGet parsed "track_id" ""
  let message := dictGet parsed "message" "Unknown message"
  match available_tracks.find? (fun t => t.track_id == track_id) with
  | none =>
    { turn_number := turn_num, prompt := prompt, thought := "No match", track := none,
      message := "No track found", success := false, code := RecsysTurnCode.NO_TRACK_FOUND }
  | some t =>
    { turn_number := turn_num, prompt := prompt, thought := thought, track := some t,
      message := message, success := true, code := RecsysTurnCode.SUCCESS }

/-! ### `tp2dg/conversation_orchestrator.py`: the conversation loop

`ConversationOrchestrator.generate` lines 46–70.  The external LLM calls are
modelled as oracles: `recsys_response n` is the recsys model's reply text on
iteration `n`, and `listener_react n` is the listener turn produced by
`ListenerLLM.get_reaction_with_thought` for turn `n` (its contents are opaque
to the loop).  The `for turn_num in range(1, num_turns + 1)` loop is embedded
with an explicit iteration-count argument `fuel`, initially `num_turns`. -/

def generateLoop (recsys_response : Nat → String) (listener_react : Nat → ListenerTurn)
    (num_turns : Nat) (preferred_language : String) :
    Nat → Nat → List Track → ListenerTurn → List ConversationTurn → List ConversationTurn
  | 0, _, _, _, conv => conv
  | fuel + 1, turn_num, available, listener_turn, conv =>
    if available = [] then conv
    else
      let recsys_turn := get_recommendation_with_thought (recsys_response turn_num) turn_num
        conv available listener_turn.message preferred_language
      let conv2 := conv ++ [⟨turn_num, listener_turn, recsys_turn⟩]
      let available2 := available.filter (fun t =>
        match recsys_turn.track with
        | some rt => !(t.track_id == rt.track_id)
        | none => true)
      let listener2 :=
        if turn_num < num_turns ∧ recsys_turn.track.isSome then listener_react (turn_num + 1)
        else listener_turn
      generateLoop recsys_response listener_react num_turns preferred_language
        fuel (turn_num + 1) available2 listener2 conv2

/-- The conversation loop of `ConversationOrchestrator.generate`:
`initial_listener` is the opening turn from `ListenerLLM.get_initial_request`,
`pool` the recommendation pool (the working pool starts as its copy
`pool[:]`), `num_turns` the requested budget. -/
def generate (recsys_response : Nat → String) (listener_react : Nat → ListenerTurn)
    (initial_listener : ListenerTurn) (pool : List Track) (preferred_language : String)
    (num_turns : Nat) : List ConversationTurn :=
  generateLoop recsys_response listener_react num_turns preferred_language
    num_turns 1 pool initial_listener []

/-! ### `tp2dg/entities/conversation_goal.py` -/

/-- `ConversationGoalCategoryCode` (conversation_goal.py lines 16–32). -/
inductive ConversationGoalCategoryCode where
  | A | B | C | D | E | F | G | H | I | J | K | UNKNOWN
deriving DecidableEq

/-- Python `Enum.value` for the category codes. -/
def ConversationGoalCategoryCode.value : ConversationGoalCategoryCode → String
  | .A => "A" | .B => "B" | .C => "C" | .D => "D" | .E => "E" | .F => "F"
  | .G => "G" | .H => "H" | .I => "I" | .J => "J" | .K => "K"
  | .UNKNOWN => "UNKNOWN"

/-- `ConversationGoalCategoryCode.get_selectable_codes`: every member except
`UNKNOWN`, in declaration order. -/
def ConversationGoalCategoryCode.get_selectable_codes : List ConversationGoalCategoryCode :=
  [.A, .B, .C, .D, .E, .F, .G, .H, .I, .J, .K]

/-- `ConversationGoalSpecificityCode` (conversation_goal.py lines 35–44). -/
inductive ConversationGoalSpecificityCode where
  | LL | LH | HH | HL | UNKNOWN
deriving DecidableEq

/-- Python `Enum.value` for the specificity codes. -/
def ConversationGoalSpecificityCode.value : ConversationGoalSpecificityCode → String
  | .LL => "LL" | .LH => "LH" | .HH => "HH" | .HL => "HL" | .UNKNOWN => "UNKNOWN"

/-- `ConversationGoalSpecificityCode.get_selectable_codes`. -/
def ConversationGoalSpecificityCode.get_selectable_codes : List ConversationGoalSpecificityCode :=
  [.LL, .LH, .HH, .HL]

/-- Python `ConversationGoalCategoryCode(v)`: enum lookup by value; raises
`ValueError` when `v` is not a member value. -/
def categoryCodeOfValue (v : String) : Except String ConversationGoalCategoryCode :=
  match (ConversationGoalCategoryCode.get_selectable_codes ++
      [ConversationGoalCategoryCode.UNKNOWN]).find? (fun c => c.value == v) with
  | some c => .ok c
  | none => .error ("ValueError: " ++ v)

/-- Python `ConversationGoalSpecificityCode(v)`. -/
def specificityCodeOfValue (v : String) : Except String ConversationGoalSpecificityCode :=
  match (ConversationGoalSpecificityCode.get_selectable_codes ++
      [ConversationGoalSpecificityCode.UNKNOWN]).find? (fun c => c.value == v) with
  | some c => .ok c
  | none => .error ("ValueError: " ++ v)

/-- One catalog entry of `CONVERSATION_GOALS`, i.e. the fields of a yaml
record that `from_codes` reads. -/
structure CatalogGoalEntry where
  category_description : String
  specificity_description : String
  listener_goal : String
  listener_expertise : String
  initial_query_examples : List String
  iteration_query_examples : List String
  achieved_query_examples : List String
deriving DecidableEq

/-- Modelled from the spec: the catalog file `conversation_goals.yaml` is
loaded at import time but is not under `src/`.  Per the spec (§4.2), "the
cross-product only contains codes with catalog entries", i.e. every
non-sentinel (category, specificity) pair has an entry, and `UNKNOWN` is
never a valid lookup key.  The entry contents are unknown, so they are
rendered as strings derived from the codes. -/
def catalogEntry (category specificity : String) : CatalogGoalEntry :=
  { category_description := "category " ++ category,
    specificity_description := "specificity " ++ specificity,
    listener_goal := "goal " ++ category ++ specificity,
    listener_expertise := "expertise " ++ category ++ specificity,
    initial_query_examples := ["initial " ++ category ++ specificity],
    iteration_query_examples := ["iteration " ++ category ++ specificity],
    achieved_query_examples := ["achieved " ++ category ++ specificity] }

/-- The category code values that have catalog entries. -/
def categorySelectableValues : List String :=
  ConversationGoalCategoryCode.get_selectable_codes.map (fun c => c.value)

/-- The specificity code values that have catalog entries. -/
def specificitySelectableValues : List String :=
  ConversationGoalSpecificityCode.get_selectable_codes.map (fun s => s.value)

/-- `ConversationGoal.find_conversation_goal` (conversation_goal.py lines
69–74): linear search of the catalog by code pair; raises `ValueError` when
no entry matches. -/
def find_conversation_goal (category specificity : String) : Except String CatalogGoalEntry :=
  if category ∈ categorySelectableValues ∧ specificity ∈ specificitySelectableValues then
    .ok (catalogEntry category specificity)
  else
    .error ("No conversation goal found for category " ++ category ++
      " and specificity " ++ specificity)

/-- `ConversationGoal` (conversation_goal.py lines 47–59, dataclass fields). -/
structure ConversationGoal where
  category_code : ConversationGoalCategoryCode
  category_description : String
  specificity_code : ConversationGoalSpecificityCode
  specificity_description : String
  listener_goal : String
  listener_expertise : String
  initial_query_examples : List String
  iteration_query_examples : List String
  achieved_query_examples : List String
  target_turn_count : Nat := 8
  success : Bool := true
deriving DecidableEq

/-- `ConversationGoal.unknown_conversation_goal` (lines 99–113). -/
def ConversationGoal.unknown_conversation_goal : ConversationGoal :=
  { category_code := ConversationGoalCategoryCode.UNKNOWN,
    category_description := "Unknown",
    specificity_code := ConversationGoalSpecificityCode.UNKNOWN,
    specificity_description := "Unknown",
    listener_goal := "Unknown",
    listener_expertise := "Unknown",
    initial_query_examples := ["Unknown"],
    iteration_query_examples := ["Unknown"],
    achieved_query_examples := ["Unknown"],
    target_turn_count := 8,
    success := false }

/-- `ConversationGoal.from_codes` (lines 115–138). -/
def ConversationGoal.from_codes (category_code : ConversationGoalCategoryCode)
    (specificity_code : ConversationGoalSpecificityCode) : Except String ConversationGoal :=
  if category_code = ConversationGoalCategoryCode.UNKNOWN ∨
      specificity_code = ConversationGoalSpecificityCode.UNKNOWN then
    .ok ConversationGoal.unknown_conversation_goal
  else do
    let goal ← find_conversation_goal category_code.value specificity_code.value
    .ok { category_code := category_code,
          category_description := goal.category_description,
          specificity_code := specificity_code,
          specificity_description := goal.specificity_description,
          listener_goal := goal.listener_goal,
          listener_expertise := goal.listener_expertise,
          initial_query_examples := goal.initial_query_examples,
          iteration_query_examples := goal.iteration_query_examples,
          achieved_query_examples := goal.achieved_query_examples,
          target_turn_count := 8 }

/-! ### The Python global RNG and `random.shuffle` -/

/-- The module-level `random` generator state. Modelled from the Python
standard library (external to the repository): the Mersenne-Twister word
stream is abstracted as a concrete arithmetic mixing function of the seed
and a call counter.  The claims depend only on `random.seed` making the
state a function of the seed alone. -/
structure PyRandomState where
  seedVal : Int
  idx : Nat
deriving DecidableEq

/-- `random.seed(seed)`: reinitialise the global state from the seed alone. -/
def pySeed (seed : Int) : PyRandomState := ⟨seed, 0⟩

/-- Stand-in mixing function for the twister's output stream. -/
def mixRand (seed : Int) (idx : Nat) : Nat :=
  ((seed.natAbs + 1) * 6364136223846793005 + idx * 1442695040888963407) % (2 ^ 64)

/-- `random._randbelow(n)` on the global state. -/
def randbelow (st : PyRandomState) (n : Nat) : Nat × PyRandomState :=
  (mixRand st.seedVal st.idx % n, ⟨st.seedVal, st.idx + 1⟩)

/-- Python `x[i], x[j] = x[j], x[i]`. -/
def listSwap {α : Type} (l : List α) (i j : Nat) : List α :=
  match l[i]?, l[j]? with
  | some a, some b => (l.set i b).set j a
  | _, _ => l

/-- CPython `random.shuffle` body: `for i in reversed(range(1, len(x))):
j = _randbelow(i + 1); swap`.  The argument `k` is the next index `i` to
process; the loop runs while `i ≥ 1`. -/
def shuffleAux {α : Type} : List α → PyRandomState → Nat → List α × PyRandomState
  | l, st, 0 => (l, st)
  | l, st, k + 1 =>
    let jst := randbelow st (k + 2)
    shuffleAux (listSwap l (k + 1) jst.1) jst.2 k

/-- `random.shuffle(x)` on the global state. -/
def pyShuffle {α : Type} (l : List α) (st : PyRandomState) : List α × PyRandomState :=
  shuffleAux l st (l.length - 1)

/-- The `selectable` cross-product of `sample_conversation_goals`
(conversation_goal.py lines 81–85): `(c.value, s.value)` for every selectable
category and specificity code, in nested-loop order. -/
def selectable_pairs : List (String × String) :=
  ConversationGoalCategoryCode.get_selectable_codes.flatMap (fun c =>
    ConversationGoalSpecificityCode.get_selectable_codes.map (fun s => (c.value, s.value)))

/-- The selection loop of `sample_conversation_goals` (lines 87–96): walk the
shuffled pair list, resolve each pair (the discarded `g =
find_conversation_goal(...)` lookup, then `from_codes`), and stop as soon as
`num_goals` goals are collected. -/
def selectLoop : List (String × String) → Nat → List ConversationGoal →
    Except String (List ConversationGoal)
  | [], _, selected => .ok selected
  | p :: rest, k, selected => do
    let _g ← find_conversation_goal p.1 p.2
    let c ← categoryCodeOfValue p.1
    let s ← specificityCodeOfValue p.2
    let goal ← ConversationGoal.from_codes c s
    let selected2 := selected ++ [goal]
    if k ≤ selected2.length then .ok selected2
    else selectLoop rest k selected2

/-- `ConversationGoal.sample_conversation_goals` (lines 76–97): takes and
returns the global RNG state; `raise ValueError` is modelled as `.error`
(raised before any sampling, leaving the state untouched). -/
def sample_conversation_goals (st : PyRandomState) (seed : Int) (num_goals : Int) :
    Except String (List ConversationGoal) × PyRandomState :=
  if num_goals ≤ 0 then
    (.error ("Cannot sample " ++ toString num_goals ++ " goals."), st)
  else
    let st1 := pySeed seed
    let shuffled := pyShuffle selectable_pairs st1
    (selectLoop shuffled.1 num_goals.toNat [], shuffled.2)

/-- The category code a selected pair's value string denotes (the enum
construction `ConversationGoalCategoryCode(cat)` of line 92, as a total
function for use in statements). -/
def catOf (p : String × String) : ConversationGoalCategoryCode :=
  match categoryCodeOfValue p.1 with
  | .ok c => c
  | .error _ => ConversationGoalCategoryCode.UNKNOWN

/-- The specificity code a selected pair's value string denotes. -/
def speOf (p : String × String) : ConversationGoalSpecificityCode :=
  match specificityCodeOfValue p.2 with
  | .ok s => s
  | .error _ => ConversationGoalSpecificityCode.UNKNOWN

/-- The ConversationGoal that the selection loop builds for one sampled pair
(lines 90–94): `from_codes` on the pair's codes, as a total function for use
in statements. -/
def resolveGoalPair (p : String × String) : ConversationGoal :=
  match ConversationGoal.from_codes (catOf p) (speOf p) with
  | .ok g => g
  | .error _ => ConversationGoal.unknown_conversation_goal

/-! ### `tp2dg/components/conversation_goal_llm.py` -/

/-- `conversation_goal_query_pt2.response_expected_fields`
(`tp2dg/prompts/conversation_goal/query.py` lines 20–34). -/
def conversation_goal_pt2_fields : List String :=
  ["category_code", "category_description", "specificity_code", "specificity_description",
   "listener_goal", "listener_expertise", "initial_query_example_1", "initial_query_example_2",
   "iteration_query_example_1", "iteration_query_example_2", "achieved_query_example_1",
   "achieved_query_example_2", "target_turn_count"]

/-- The attribute names defined on the `ConversationGoal` class
(conversation_goal.py lines 47–141): the dataclass fields and the methods
declared in the class body.  Neither `CategoryCode` nor `SpecificityCode`
is among them — the enums are the separate module-level classes
`ConversationGoalCategoryCode` and `ConversationGoalSpecificityCode`. -/
def conversationGoalClassAttrNames : List String :=
  ["category_code", "category_description", "specificity_code", "specificity_description",
   "listener_goal", "listener_expertise", "initial_query_examples", "iteration_query_examples",
   "achieved_query_examples", "target_turn_count", "success",
   "list_all_category_codes", "list_all_specificity_codes", "find_conversation_goal",
   "sample_conversation_goals", "unknown_conversation_goal", "from_codes", "prompt_str"]

/-- Python exceptions that the `try` block of
`ConversationGoalLLM.generate_from_recommendation_pool` can raise. -/
inductive PyError where
  | attributeError (name : String)
  | keyError (key : String)
  | valueError (msg : String)
deriving DecidableEq

/-- Python attribute access `ConversationGoal.<name>`. -/
def conversationGoalClassAttr (name : String) : Except PyError Unit :=
  if name ∈ conversationGoalClassAttrNames then .ok () else .error (.attributeError name)

/-- Python `parsed[key]` on the extracted dict. -/
def pyDictGetItem (d : List (String × String)) (key : String) : Except PyError String :=
  match d.find? (fun kv => kv.1 = key) with
  | some kv => .ok kv.2
  | none => .error (.keyError key)

/-- The `try` block of conversation_goal_llm.py lines 37–40, with Python's
left-to-right evaluation: the callable `ConversationGoal.CategoryCode` is
looked up before its argument is evaluated, then the argument, then the
`SpecificityCode` lookup, then the calls. -/
def tryResolveGoalFromParsed (parsed : List (String × String)) :
    Except PyError ConversationGoal := do
  let _ ← conversationGoalClassAttr "CategoryCode"
  let catRaw ← pyDictGetItem parsed "category_code"
  let cat ← (categoryCodeOfValue catRaw).mapError (fun e => PyError.valueError e)
  let _ ← conversationGoalClassAttr "SpecificityCode"
  let speRaw ← pyDictGetItem parsed "specificity_code"
  let spe ← (specificityCodeOfValue speRaw).mapError (fun e => PyError.valueError e)
  (ConversationGoal.from_codes cat spe).mapError (fun e => PyError.valueError e)

/-- The parse-and-resolve tail of
`ConversationGoalLLM.generate_from_recommendation_pool` (lines 36–42): parse
the model reply, try to resolve a goal, and fall back to the canonical
UNKNOWN goal on any exception. -/
def generate_from_recommendation_pool_goal (response_text : String) : ConversationGoal :=
  let parsed := robust_parse_yaml_response response_text conversation_goal_pt2_fields
  match tryResolveGoalFromParsed parsed with
  | .ok g => g
  | .error _ => ConversationGoal.unknown_conversation_goal

/-! ### Concrete fixtures used by witness theorems -/

/-- A concrete listener turn for witness instantiations. -/
def wlt : ListenerTurn :=
  { turn_number := 1, prompt := "", thought := "t", goal_progress_assessment := none,
    message := "hi" }

/-- A concrete track for witness instantiations. -/
def wtrack1 : Track := { track_id := "T1", title := "a", artist := "x" }

/-- A second concrete track, with a distinct id. -/
def wtrack2 : Track := { track_id := "T2", title := "b", artist := "y" }

/-- A recsys oracle that names `T1` on turn 1 and `T2` afterwards. -/
def wro : Nat → String := fun n => if n = 1 then "track_id: T1" else "track_id: T2"

/-- A recsys oracle that always names an id outside the pool. -/
def wroBad : Nat → String := fun _ => "track_id: ZZZ"

/-- A listener oracle for witness instantiations. -/
def wlo : Nat → ListenerTurn := fun n =>
  { turn_number := n, prompt := "", thought := "t", goal_progress_assessment := none,
    message := "more" }

/-! ### Theorems -/

/-- **C6** Applying the extractor to the text
`"thought: Hello\nworld\ntrack_id: T7\nmessage: \"Nice one\""` with expected
fields `[thought, track_id, message]` yields exactly the mapping
`thought = "Hello world"`, `track_id = "T7"`, `message = "Nice one"`
(multi-line values joined with single spaces, enclosing quotes stripped);
the result dict holds exactly these three entries, in extraction order. -/
theorem extractor_round_trip :
    robust_parse_yaml_response "thought: Hello\nworld\ntrack_id: T7\nmessage: \"Nice one\""
      ["thought", "track_id", "message"] =
      [("message", "Nice one"), ("track_id", "T7"), ("thought", "Hello world")] := by
  decide

/-- **C7** Wrapping the round-trip example text in a fenced code block (a
leading ```` ```yaml ```` line and a trailing ```` ``` ```` line) and
extracting with the same expected fields produces a result identical to
extracting the unwrapped text. -/
theorem extractor_fenced_block_identical :
    robust_parse_yaml_response
        "```yaml\nthought: Hello\nworld\ntrack_id: T7\nmessage: \"Nice one\"\n```"
        ["thought", "track_id", "message"] =
      robust_parse_yaml_response "thought: Hello\nworld\ntrack_id: T7\nmessage: \"Nice one\""
        ["thought", "track_id", "message"] := by
  decide

/-- **C5** For every model response text,
`ConversationGoalLLM.generate_from_recommendation_pool` returns the canonical
UNKNOWN ConversationGoal with `success = false`: the resolution branch
accesses the nonexistent class attribute `ConversationGoal.CategoryCode`, so
the catch-all handler's fallback fires on every call. -/
theorem goal_llm_always_unknown (response_text : String) :
    generate_from_recommendation_pool_goal response_text =
        ConversationGoal.unknown_conversation_goal ∧
      (generate_from_recommendation_pool_goal response_text).success = false := by
  have h : conversationGoalClassAttr "CategoryCode" =
      Except.error (PyError.attributeError "CategoryCode") := by rfl
  have h2 : generate_from_recommendation_pool_goal response_text =
      ConversationGoal.unknown_conversation_goal := by
    unfold generate_from_recommendation_pool_goal tryResolveGoalFromParsed
    rw [h]
    rfl
  exact ⟨h2, by rw [h2]; rfl⟩

/-- **C9** For a fixed catalog, two calls of
`ConversationGoal.sample_conversation_goals` with the same seed and the same
count return identical ordered goal lists, whatever the incoming global RNG
states are: `random.seed(seed)` makes the result a function of seed and
count alone. -/
theorem sample_goals_deterministic (st1 st2 : PyRandomState) (seed : Int) (k : Int) :
    (sample_conversation_goals st1 seed k).1 = (sample_conversation_goals st2 seed k).1 := by
  unfold sample_conversation_goals
  split <;> rfl

/-! ### Helper lemmas about the recommendation step and the loop -/

theorem get_recommendation_track (text : String) (tn : Nat) (conv : List ConversationTurn)
    (avail : List Track) (lm pl : String) :
    (get_recommendation_with_thought text tn conv avail lm pl).track =
      avail.find? (fun t => t.track_id ==
        dictGet (robust_parse_yaml_response text recsys_following_turns_fields) "track_id" "") := by
  simp only [get_recommendation_with_thought]
  split <;> rename_i heq <;> rw [heq]

theorem get_recommendation_eq_of_find_none (text : String) (tn : Nat)
    (conv : List ConversationTurn) (avail : List Track) (lm pl : String)
    (h : avail.find? (fun t => t.track_id ==
      dictGet (robust_parse_yaml_response text recsys_following_turns_fields) "track_id" "")
      = none) :
    get_recommendation_with_thought text tn conv avail lm pl =
      { turn_number := tn,
        prompt := recsys_following_turns_format tn (used_track_ids conv) lm pl,
        thought := "No match", track := none, message := "No track found",
        success := false, code := RecsysTurnCode.NO_TRACK_FOUND } := by
  simp only [get_recommendation_with_thought]
  rw [h]

/-- One unfolding of the loop when the pool is nonempty. -/
theorem generateLoop_succ_ne (ro : Nat → String) (lo : Nat → ListenerTurn) (N : Nat)
    (pl : String) (fuel tn : Nat) (avail : List Track) (lt : ListenerTurn)
    (conv : List ConversationTurn) (h : avail ≠ []) :
    generateLoop ro lo N pl (fuel + 1) tn avail lt conv =
      generateLoop ro lo N pl fuel (tn + 1)
        (avail.filter (fun t =>
          match (get_recommendation_with_thought (ro tn) tn conv avail lt.message pl).track with
          | some rt => !(t.track_id == rt.track_id)
          | none => true))
        (if tn < N ∧ (get_recommendation_with_thought (ro tn) tn conv avail lt.message pl).track.isSome
          then lo (tn + 1) else lt)
        (conv ++ [⟨tn, lt, get_recommendation_with_thought (ro tn) tn conv avail lt.message pl⟩]) := by
  simp only [generateLoop, if_neg h]

/-- The loop only appends: the incoming conversation is a prefix of the result. -/
theorem generateLoop_append_only (ro : Nat → String) (lo : Nat → ListenerTurn) (N : Nat)
    (pl : String) :
    ∀ (fuel tn : Nat) (avail : List Track) (lt : ListenerTurn) (conv : List ConversationTurn),
      conv <+: generateLoop ro lo N pl fuel tn avail lt conv := by
  intro fuel
  induction fuel with
  | zero => intro tn avail lt conv; simp [generateLoop]
  | succ fuel ih =>
    intro tn avail lt conv
    by_cases h : avail = []
    · simp [generateLoop, h]
    · rw [generateLoop_succ_ne ro lo N pl fuel tn avail lt conv h]
      exact List.IsPrefix.trans (List.prefix_append conv _) (ih (tn + 1) _ _ _)

theorem used_track_ids_append (conv : List ConversationTurn) (tr : ConversationTurn) :
    used_track_ids (conv ++ [tr]) =
      used_track_ids conv ++
        (match tr.recsys_turn.track with
          | some t => [t.track_id]
          | none => []) := by
  simp only [used_track_ids, List.filterMap_append]
  cases h : tr.recsys_turn.track <;> simp [h, List.filterMap]

/-- Invariant carrying the no-duplicates property through the loop: the ids
used so far are distinct and disjoint from the working pool. -/
theorem generateLoop_nodup (ro : Nat → String) (lo : Nat → ListenerTurn) (N : Nat)
    (pl : String) :
    ∀ (fuel tn : Nat) (avail : List Track) (lt : ListenerTurn) (conv : List ConversationTurn),
      (used_track_ids conv).Nodup →
      (∀ t ∈ avail, t.track_id ∉ used_track_ids conv) →
      (used_track_ids (generateLoop ro lo N pl fuel tn avail lt conv)).Nodup := by
  intro fuel
  induction fuel with
  | zero => intro tn avail lt conv h1 _; simpa [generateLoop] using h1
  | succ fuel ih =>
    intro tn avail lt conv h1 h2
    by_cases h : avail = []
    · simpa [generateLoop, h] using h1
    · rw [generateLoop_succ_ne ro lo N pl fuel tn avail lt conv h]
      apply ih
      · rw [used_track_ids_append]
        cases hT : (get_recommendation_with_thought (ro tn) tn conv avail lt.message pl).track with
        | none => simpa using h1
        | some rt =>
          have hfind : avail.find? (fun t => t.track_id ==
              dictGet (robust_parse_yaml_response (ro tn) recsys_following_turns_fields)
                "track_id" "") = some rt := by
            rw [← get_recommendation_track (ro tn) tn conv avail lt.message pl]
            exact hT
          have hmem : rt ∈ avail := List.mem_of_find?_eq_some hfind
          have hid : rt.track_id ∉ used_track_ids conv := h2 rt hmem
          simp [List.nodup_append, h1, hid]
      · intro t ht
        rw [used_track_ids_append]
        cases hT : (get_recommendation_with_thought (ro tn) tn conv avail lt.message pl).track with
        | none =>
          simp only [hT, List.filter_true] at ht
          simpa using h2 t ht
        | some rt =>
          simp only [hT] at ht
          rw [List.mem_filter] at ht
          have h3 := h2 t ht.1
          have h4 : t.track_id ≠ rt.track_id := by simpa using ht.2
          simp [h3, h4]

/-- **C1** For every conversation produced by the orchestrator loop, the set
of track ids referenced by ConversationTurns whose recsys turn carries a
track contains no duplicates: a recommended track always comes from the
current working pool and is removed from it afterwards. -/
theorem recommended_tracks_nodup (ro : Nat → String) (lo : Nat → ListenerTurn)
    (lt0 : ListenerTurn) (pool : List Track) (pl : String) (N : Nat) :
    (used_track_ids (generate ro lo lt0 pool pl N)).Nodup := by
  unfold generate
  apply generateLoop_nodup
  · simp [used_track_ids]
  · intro t _
    simp [used_track_ids]

/-- Invariant for turn numbering: the conversation built so far is numbered
`1 .. tn-1`. -/
theorem generateLoop_turn_numbers (ro : Nat → String) (lo : Nat → ListenerTurn) (N : Nat)
    (pl : String) :
    ∀ (fuel tn : Nat) (avail : List Track) (lt : ListenerTurn) (conv : List ConversationTurn),
      conv.map (fun tr => tr.turn_number) = List.range' 1 (tn - 1) → 1 ≤ tn →
      ∃ M, (generateLoop ro lo N pl fuel tn avail lt conv).map (fun tr => tr.turn_number) =
          List.range' 1 M ∧ M ≤ tn - 1 + fuel := by
  intro fuel
  induction fuel with
  | zero =>
    intro tn avail lt conv hconv htn
    exact ⟨tn - 1, by simpa [generateLoop] using hconv, by omega⟩
  | succ fuel ih =>
    intro tn avail lt conv hconv htn
    by_cases h : avail = []
    · exact ⟨tn - 1, by simpa [generateLoop, h] using hconv, by omega⟩
    · rw [generateLoop_succ_ne ro lo N pl fuel tn avail lt conv h]
      have hconv2 : (conv ++
          [(⟨tn, lt, get_recommendation_with_thought (ro tn) tn conv avail lt.message pl⟩ :
            ConversationTurn)]).map (fun tr => tr.turn_number) =
          List.range' 1 (tn + 1 - 1) := by
        rw [List.map_append, hconv]
        have : tn - 1 + 1 = tn + 1 - 1 := by omega
        rw [← this, List.range'_concat]
        simp only [List.map_cons, List.map_nil]
        congr 2
        omega
      obtain ⟨M, hM1, hM2⟩ := ih (tn + 1) _ _ _ hconv2 (by omega)
      exact ⟨M, hM1, by omega⟩

/-- **C2** For every conversation produced with requested turn budget
`N ≥ 1`, the `turn_number` fields of the appended ConversationTurns form the
contiguous range `1..M` in order, for some `M ≤ N`. -/
theorem turn_numbers_contiguous (ro : Nat → String) (lo : Nat → ListenerTurn)
    (lt0 : ListenerTurn) (pool : List Track) (pl : String) (N : Nat) (hN : 1 ≤ N) :
    ∃ M, M ≤ N ∧
      (generate ro lo lt0 pool pl N).map (fun tr => tr.turn_number) = List.range' 1 M := by
  unfold generate
  obtain ⟨M, hM1, hM2⟩ :=
    generateLoop_turn_numbers ro lo N pl N 1 pool lt0 [] (by simp) (by omega)
  exact ⟨M, by omega, hM1⟩

/-- **C2 witness** at a concrete instantiation. -/
theorem turn_numbers_contiguous_witness :
    (1 ≤ 1) ∧ ∃ M, M ≤ 1 ∧
      (generate (fun _ => "") (fun _ => wlt) wlt [] "English" 1).map
        (fun tr => tr.turn_number) = List.range' 1 M :=
  ⟨by decide, turn_numbers_contiguous (fun _ => "") (fun _ => wlt) wlt [] "English" 1 (by decide)⟩

/-- **C3** When, in some loop iteration, the recsys reply names a track id
not present in the current available-track set, the resulting RecsysTurn has
`track = none`, `success = false` and code `NO_TRACK_FOUND`, a
ConversationTurn containing it is still appended (the conversation is not
aborted), and the working pool after that iteration equals the pool before
it. -/
theorem no_matching_track_step (ro : Nat → String) (lo : Nat → ListenerTurn) (N : Nat)
    (pl : String) (fuel tn : Nat) (avail : List Track) (lt : ListenerTurn)
    (conv : List ConversationTurn)
    (hne : avail ≠ [])
    (hmiss : dictGet (robust_parse_yaml_response (ro tn) recsys_following_turns_fields)
        "track_id" "" ∉ avail.map (fun t => t.track_id)) :
    (get_recommendation_with_thought (ro tn) tn conv avail lt.message pl).track = none ∧
      (get_recommendation_with_thought (ro tn) tn conv avail lt.message pl).success = false ∧
      (get_recommendation_with_thought (ro tn) tn conv avail lt.message pl).code =
        RecsysTurnCode.NO_TRACK_FOUND ∧
      generateLoop ro lo N pl (fuel + 1) tn avail lt conv =
        generateLoop ro lo N pl fuel (tn + 1) avail lt
          (conv ++
            [⟨tn, lt, get_recommendation_with_thought (ro tn) tn conv avail lt.message pl⟩]) := by
  have hfind : avail.find? (fun t => t.track_id ==
      dictGet (robust_parse_yaml_response (ro tn) recsys_following_turns_fields)
        "track_id" "") = none := by
    rw [List.find?_eq_none]
    intro x hx hbeq
    exact hmiss (List.mem_map.mpr ⟨x, hx, by simpa using hbeq⟩)
  have heq := get_recommendation_eq_of_find_none (ro tn) tn conv avail lt.message pl hfind
  refine ⟨by rw [heq], by rw [heq], by rw [heq], ?_⟩
  rw [generateLoop_succ_ne ro lo N pl fuel tn avail lt conv hne, heq]
  simp [List.filter_true]

/-- **C3 witness** at a concrete instantiation: one track `T1` in the pool,
the reply names `ZZZ`. -/
theorem no_matching_track_step_witness :
    (([wtrack1] : List Track) ≠ [] ∧
      dictGet (robust_parse_yaml_response (wroBad 1) recsys_following_turns_fields)
        "track_id" "" ∉ [wtrack1].map (fun t => t.track_id)) ∧
    ((get_recommendation_with_thought (wroBad 1) 1 [] [wtrack1] wlt.message "English").track
        = none ∧
      (get_recommendation_with_thought (wroBad 1) 1 [] [wtrack1] wlt.message "English").success
        = false ∧
      (get_recommendation_with_thought (wroBad 1) 1 [] [wtrack1] wlt.message "English").code =
        RecsysTurnCode.NO_TRACK_FOUND ∧
      generateLoop wroBad wlo 3 "English" (2 + 1) 1 [wtrack1] wlt [] =
        generateLoop wroBad wlo 3 "English" 2 (1 + 1) [wtrack1] wlt
          ([] ++
            [⟨1, wlt, get_recommendation_with_thought (wroBad 1) 1 [] [wtrack1] wlt.message
              "English"⟩])) :=
  ⟨⟨by decide, by decide⟩,
    no_matching_track_step wroBad wlo 3 "English" 2 1 [wtrack1] wlt [] (by decide) (by decide)⟩

/-- The tail of the pool-exhaustion scenario: from a one-track pool at turn 2
with budget 5, a successful recommendation empties the pool and the loop
stops after turn 2. -/
theorem c4_tail (ro : Nat → String) (lo : Nat → ListenerTurn) (pl : String)
    (u : Track) (L : ListenerTurn) (T1 : ConversationTurn)
    (hT1 : T1.turn_number = 1)
    (hsucc : ∀ tr ∈ generateLoop ro lo 5 pl 4 2 [u] L [T1],
      tr.recsys_turn.track.isSome = true) :
    (generateLoop ro lo 5 pl 4 2 [u] L [T1]).map (fun tr => tr.turn_number) = [1, 2] := by
  have hstep := generateLoop_succ_ne ro lo 5 pl 3 2 [u] L [T1] (by simp)
  set R2 := get_recommendation_with_thought (ro 2) 2 [T1] [u] L.message pl with hR2def
  have hmem2 : (⟨2, L, R2⟩ : ConversationTurn) ∈ generateLoop ro lo 5 pl 4 2 [u] L [T1] := by
    rw [hstep]
    exact (generateLoop_append_only ro lo 5 pl 3 3 _ _ _).subset (by simp)
  have hs2 : R2.track.isSome = true := hsucc _ hmem2
  obtain ⟨rt2, hrt2⟩ := Option.isSome_iff_exists.mp hs2
  have htr := get_recommendation_track (ro 2) 2 [T1] [u] L.message pl
  rw [← hR2def, hrt2] at htr
  have hrt2u : rt2 = u := by
    have := List.mem_of_find?_eq_some htr.symm
    simpa using this
  have hrtu : R2.track = some u := by rw [hrt2, hrt2u]
  have hA3 : ([u].filter (fun t =>
      match R2.track with
      | some rt => !(t.track_id == rt.track_id)
      | none => true)) = [] := by
    simp [hrtu]
  rw [hstep, hA3]
  have hempty : ∀ L3, generateLoop ro lo 5 pl 3 3 [] L3 ([T1] ++ [⟨2, L, R2⟩]) =
      [T1, ⟨2, L, R2⟩] := by
    intro L3
    simp [generateLoop]
  rw [hempty]
  simp [hT1]

/-- **C4** Given a working pool of exactly 2 tracks (with distinct ids, as
pool ids are unique) and a requested turn budget of 5, if every recsys turn
of the produced conversation successfully recommends some track from the
current pool, the loop stops after appending turn 2 — the pool is empty at
the start of iteration 3 — rather than producing 5 turns. -/
theorem pool_exhaustion_stops (ro : Nat → String) (lo : Nat → ListenerTurn)
    (lt0 : ListenerTurn) (pl : String) (t1 t2 : Track)
    (hid : t1.track_id ≠ t2.track_id)
    (hsucc : ∀ tr ∈ generate ro lo lt0 [t1, t2] pl 5, tr.recsys_turn.track.isSome = true) :
    (generate ro lo lt0 [t1, t2] pl 5).map (fun tr => tr.turn_number) = [1, 2] := by
  have hstep1 := generateLoop_succ_ne ro lo 5 pl 4 1 [t1, t2] lt0 [] (by simp)
  set R1 := get_recommendation_with_thought (ro 1) 1 [] [t1, t2] lt0.message pl with hR1def
  have hg : generate ro lo lt0 [t1, t2] pl 5 = generateLoop ro lo 5 pl 4 2
      ([t1, t2].filter (fun t =>
        match R1.track with
        | some rt => !(t.track_id == rt.track_id)
        | none => true))
      (if 1 < 5 ∧ R1.track.isSome then lo 2 else lt0)
      [⟨1, lt0, R1⟩] := by
    unfold generate
    rw [hstep1]
    simp only [List.nil_append]
  have hmem1 : (⟨1, lt0, R1⟩ : ConversationTurn) ∈ generate ro lo lt0 [t1, t2] pl 5 := by
    rw [hg]
    exact (generateLoop_append_only ro lo 5 pl 4 2 _ _ _).subset (by simp)
  have hs1 : R1.track.isSome = true := hsucc _ hmem1
  obtain ⟨rt1, hrt1⟩ := Option.isSome_iff_exists.mp hs1
  have htr := get_recommendation_track (ro 1) 1 [] [t1, t2] lt0.message pl
  rw [← hR1def, hrt1] at htr
  have hmemA1 : rt1 ∈ [t1, t2] := List.mem_of_find?_eq_some htr.symm
  have hL2 : (if 1 < 5 ∧ R1.track.isSome then lo 2 else lt0) = lo 2 := by
    simp [hrt1]
  rcases (by simpa using hmemA1 : rt1 = t1 ∨ rt1 = t2) with hcase | hcase
  · have hrtu : R1.track = some t1 := by rw [hrt1, hcase]
    have hA2 : ([t1, t2].filter (fun t =>
        match R1.track with
        | some rt => !(t.track_id == rt.track_id)
        | none => true)) = [t2] := by
      have h2 : (t2.track_id == t1.track_id) = false :=
        beq_eq_false_iff_ne.mpr (Ne.symm hid)
      simp [hrtu, h2]
    rw [hA2, hL2] at hg
    rw [hg]
    exact c4_tail ro lo pl t2 (lo 2) _ rfl (fun tr htr => hsucc tr (by rw [hg]; exact htr))
  · have hrtu : R1.track = some t2 := by rw [hrt1, hcase]
    have hA2 : ([t1, t2].filter (fun t =>
        match R1.track with
        | some rt => !(t.track_id == rt.track_id)
        | none => true)) = [t1] := by
      have h1 : (t1.track_id == t2.track_id) = false :=
        beq_eq_false_iff_ne.mpr hid
      simp [hrtu, h1]
    rw [hA2, hL2] at hg
    rw [hg]
    exact c4_tail ro lo pl t1 (lo 2) _ rfl (fun tr htr => hsucc tr (by rw [hg]; exact htr))

/-- **C4 witness** at a concrete instantiation: pool `[T1, T2]`, budget 5,
an oracle that recommends `T1` then `T2`. -/
theorem pool_exhaustion_stops_witness :
    (wtrack1.track_id ≠ wtrack2.track_id ∧
      ∀ tr ∈ generate wro wlo wlt [wtrack1, wtrack2] "English" 5,
        tr.recsys_turn.track.isSome = true) ∧
    (generate wro wlo wlt [wtrack1, wtrack2] "English" 5).map
      (fun tr => tr.turn_number) = [1, 2] :=
  ⟨⟨by decide, by decide⟩,
    pool_exhaustion_stops wro wlo wlt "English" wtrack1 wtrack2 (by decide) (by decide)⟩

/-! ### Lemmas for the extractor's leniency properties -/

theorem mem_insertDesc (x y : Nat × String) (l : List (Nat × String)) :
    x ∈ insertDesc y l ↔ x = y ∨ x ∈ l := by
  induction l with
  | nil => simp [insertDesc]
  | cons z zs ih =>
    simp only [insertDesc]
    split
    · simp only [List.mem_cons, ih]
      tauto
    · simp [List.mem_cons]

theorem mem_sortDesc (x : Nat × String) (l : List (Nat × String)) :
    x ∈ sortDesc l ↔ x ∈ l := by
  induction l with
  | nil => simp [sortDesc]
  | cons a as ih =>
    simp only [sortDesc, List.foldr_cons] at *
    rw [mem_insertDesc, ih, List.mem_cons]

theorem mem_windows (kp : List (Nat × String)) :
    ∀ (stop : Nat) (w : String × Nat × Nat), w ∈ windows kp stop → (w.2.1, w.1) ∈ kp := by
  induction kp with
  | nil => intro stop w h; simp [windows] at h
  | cons pk rest ih =>
    intro stop w h
    simp only [windows, List.mem_cons] at h
    rcases h with h | h
    · subst h; simp
    · exact List.mem_cons_of_mem _ (ih pk.1 w h)

theorem mem_dictInsert (kv : String × String) (d : List (String × String)) (k v : String)
    (h : kv ∈ dictInsert d k v) : kv.1 = k ∨ kv ∈ d := by
  unfold dictInsert at h
  split at h
  · rw [List.mem_map] at h
    obtain ⟨kv2, hkv2, heq⟩ := h
    by_cases hk : kv2.1 = k
    · rw [if_pos hk] at heq
      left; rw [← heq]
    · rw [if_neg hk] at heq
      right; rw [← heq]; exact hkv2
  · rw [List.mem_append] at h
    rcases h with h | h
    · right; exact h
    · left; simp at h; rw [h]

theorem mem_extractStep (cl : List Char) (d : List (String × String))
    (w : String × Nat × Nat) (kv : String × String) (h : kv ∈ extractStep cl d w) :
    kv.1 = w.1 ∨ kv ∈ d := by
  unfold extractStep at h
  split at h
  · split at h
    · exact mem_dictInsert kv d w.1 _ h
    · right; exact h
  · right; exact h

theorem mem_foldl_extractStep (cl : List Char) :
    ∀ (ws : List (String × Nat × Nat)) (d : List (String × String)) (kv : String × String),
      kv ∈ ws.foldl (extractStep cl) d → kv ∈ d ∨ ∃ w ∈ ws, kv.1 = w.1 := by
  intro ws
  induction ws with
  | nil => intro d kv h; left; simpa using h
  | cons w ws ih =>
    intro d kv h
    rw [List.foldl_cons] at h
    rcases ih (extractStep cl d w) kv h with h2 | h2
    · rcases mem_extractStep cl d w kv h2 with h3 | h3
      · right; exact ⟨w, by simp, h3⟩
      · left; exact h3
    · obtain ⟨w2, hw2, hkv⟩ := h2
      right; exact ⟨w2, List.mem_cons_of_mem _ hw2, hkv⟩

theorem mem_keyPositions (cl : List Char) (expected : List String) (p : Nat) (k : String)
    (h : (p, k) ∈ keyPositions cl expected) :
    k ∈ expected ∧ findKeyPos cl k.data = some p := by
  unfold keyPositions at h
  rw [List.mem_filterMap] at h
  obtain ⟨key, hkey, hmap⟩ := h
  rw [Option.map_eq_some'] at hmap
  obtain ⟨p2, hp2, heq⟩ := hmap
  have hk : key = k := congrArg Prod.snd heq
  have hp : p2 = p := congrArg Prod.fst heq
  subst hk; subst hp
  exact ⟨hkey, hp2⟩

theorem keyColonAt_isPrefix (cl key : List Char) (p : Nat)
    (h : keyColonAt cl key p = true) : key.isPrefixOf (cl.drop p) = true := by
  unfold keyColonAt at h
  rw [Bool.and_eq_true] at h
  exact h.1

theorem findKeyPos_containsSub (cl key : List Char) (p : Nat)
    (h : findKeyPos cl key = some p) : containsSub key cl = true := by
  unfold findKeyPos at h
  have main : ∀ (pred : Nat → Bool), findFirstPos (cl.length + 1) pred = some p →
      (∀ q, pred q = true → keyColonAt cl key q = true) → containsSub key cl = true := by
    intro pred hfind himp
    have hp := List.find?_some hfind
    have hmem := List.mem_of_find?_eq_some hfind
    unfold containsSub
    rw [List.any_eq_true]
    exact ⟨p, hmem, keyColonAt_isPrefix cl key p (himp p hp)⟩
  split at h
  · rename_i p2 hfind
    have hp2 : p2 = p := by injection h
    subst hp2
    exact main _ hfind (fun q hq => by rw [Bool.and_eq_true] at hq; exact hq.2)
  · exact main _ h (fun q hq => hq)

/-- Every key of the extraction result was located in the cleaned text. -/
theorem parse_keys_located (text : String) (expected : List String) (kv : String × String)
    (h : kv ∈ robust_parse_yaml_response text expected) :
    ∃ p, (p, kv.1) ∈ keyPositions (cleanText text.data) expected := by
  unfold robust_parse_yaml_response at h
  rcases mem_foldl_extractStep (cleanText text.data) _ [] kv h with h2 | h2
  · simp at h2
  · obtain ⟨w, hw, hkv⟩ := h2
    have := mem_windows _ _ w hw
    rw [mem_sortDesc] at this
    exact ⟨w.2.1, by rw [hkv]; exact this⟩

/-- **C8 counterexample** The claim's absence conjunct fails as stated: in
`"th```x\nought: hi"` the name `thought` occurs nowhere in the input text,
yet fence-marker removal joins `th` and `ought`, and extraction returns an
entry for `thought`. -/
theorem extractor_absent_field_counterexample :
    containsSub "thought".data "th```x\nought: hi".data = false ∧
      "thought" ∈ (robust_parse_yaml_response "th```x\nought: hi" ["thought"]).map Prod.fst := by
  decide

/-- **C8 (amended)** For every input text and every list of expected field
names, `robust_parse_yaml_response` returns normally (it is a total
function), the keys of the returned mapping are a subset of the expected
field names, and an expected field whose name occurs nowhere in the *cleaned*
text (the text after fence-marker removal and stripping) is absent from the
result rather than causing an error. -/
theorem extractor_lenient (text : String) (expected : List String) :
    (∀ kv ∈ robust_parse_yaml_response text expected, kv.1 ∈ expected) ∧
      (∀ key ∈ expected, containsSub key.data (cleanText text.data) = false →
        key ∉ (robust_parse_yaml_response text expected).map Prod.fst) := by
  constructor
  · intro kv hkv
    obtain ⟨p, hp⟩ := parse_keys_located text expected kv hkv
    exact (mem_keyPositions _ _ _ _ hp).1
  · intro key _ hocc hmem
    rw [List.mem_map] at hmem
    obtain ⟨kv, hkv, hfst⟩ := hmem
    obtain ⟨p, hp⟩ := parse_keys_located text expected kv hkv
    rw [hfst] at hp
    have := (mem_keyPositions _ _ _ _ hp).2
    rw [findKeyPos_containsSub _ _ _ this] at hocc
    exact Bool.noConfusion hocc

/-- **C8 witness** at a concrete instantiation: `"x"` is extracted, the
never-occurring `"zz"` is absent. -/
theorem extractor_lenient_witness :
    (∀ kv ∈ robust_parse_yaml_response "x: 1" ["x", "zz"], kv.1 ∈ ["x", "zz"]) ∧
      (∀ key ∈ ["x", "zz"], containsSub key.data (cleanText "x: 1".data) = false →
        key ∉ (robust_parse_yaml_response "x: 1" ["x", "zz"]).map Prod.fst) :=
  extractor_lenient "x: 1" ["x", "zz"]

/-! ### Lemmas for the goal sampler -/

theorem cons_set_perm {α : Type} (xs : List α) (j : Nat) (b x : α)
    (h : xs[j]? = some b) : List.Perm (b :: xs.set j x) (x :: xs) := by
  induction xs generalizing j with
  | nil => simp at h
  | cons y t ih =>
    cases j with
    | zero =>
      rw [List.getElem?_cons_zero] at h
      injection h with h
      subst h
      exact List.Perm.swap x y t
    | succ j =>
      rw [List.getElem?_cons_succ] at h
      simp only [List.set]
      exact List.Perm.trans (List.Perm.swap y b (t.set j x))
        (List.Perm.trans (List.Perm.cons y (ih j h)) (List.Perm.swap x y t))

theorem listSwap_perm {α : Type} (l : List α) (i j : Nat) :
    List.Perm (listSwap l i j) l := by
  induction l generalizing i j with
  | nil => exact List.Perm.refl _
  | cons y t ih =>
    cases i with
    | zero =>
      cases j with
      | zero => simp [listSwap, List.set]
      | succ j =>
        cases hj : t[j]? with
        | none => simp [listSwap, hj]
        | some b =>
          simp only [listSwap, List.getElem?_cons_zero, List.getElem?_cons_succ, hj,
            List.set]
          exact cons_set_perm t j b y hj
    | succ i =>
      cases hi : t[i]? with
      | none =>
        cases j with
        | zero => simp [listSwap, hi]
        | succ j =>
          cases hj : t[j]? with
          | none => simp [listSwap, hi, hj]
          | some b => simp [listSwap, hi, hj]
      | some a =>
        cases j with
        | zero =>
          simp only [listSwap, List.getElem?_cons_zero, List.getElem?_cons_succ, hi,
            List.set]
          exact cons_set_perm t i a y hi
        | succ j =>
          cases hj : t[j]? with
          | none => simp [listSwap, hi, hj]
          | some b =>
            have ihs := ih i j
            simp only [listSwap, List.getElem?_cons_succ, hi, hj, List.set] at ihs ⊢
            exact List.Perm.cons y ihs

theorem shuffleAux_perm {α : Type} :
    ∀ (k : Nat) (l : List α) (st : PyRandomState), List.Perm (shuffleAux l st k).1 l := by
  intro k
  induction k with
  | zero => intro l st; exact List.Perm.refl _
  | succ k ih =>
    intro l st
    exact List.Perm.trans (ih _ _) (listSwap_perm l (k + 1) _)

theorem pyShuffle_perm {α : Type} (l : List α) (st : PyRandomState) :
    List.Perm (pyShuffle l st).1 l :=
  shuffleAux_perm (l.length - 1) l st

theorem selectable_pairs_nodup : selectable_pairs.Nodup := by decide

/-- For every pair of the cross-product, the catalog lookup, the enum
constructions and `from_codes` all succeed, and the resolved goal carries
exactly that pair's codes. -/
theorem selectable_pairs_facts : ∀ p ∈ selectable_pairs,
    find_conversation_goal p.1 p.2 = Except.ok (catalogEntry p.1 p.2) ∧
    categoryCodeOfValue p.1 = Except.ok (catOf p) ∧
    specificityCodeOfValue p.2 = Except.ok (speOf p) ∧
    ConversationGoal.from_codes (catOf p) (speOf p) = Except.ok (resolveGoalPair p) ∧
    ((resolveGoalPair p).category_code.value, (resolveGoalPair p).specificity_code.value) = p ∧
    (resolveGoalPair p).success = true := by
  decide

theorem selectLoop_cons (p : String × String) (rest : List (String × String)) (k : Nat)
    (acc : List ConversationGoal) (hp : p ∈ selectable_pairs) :
    selectLoop (p :: rest) k acc =
      if k ≤ (acc ++ [resolveGoalPair p]).length then
        Except.ok (acc ++ [resolveGoalPair p])
      else selectLoop rest k (acc ++ [resolveGoalPair p]) := by
  obtain ⟨h1, h2, h3, h4, _, _⟩ := selectable_pairs_facts p hp
  simp only [selectLoop, h1, h2, h3, h4, Bind.bind, Except.bind]

theorem map_eq_self_of_mem {α : Type} (f : α → α) (l : List α)
    (h : ∀ x ∈ l, f x = x) : l.map f = l := by
  induction l with
  | nil => rfl
  | cons a t ih =>
    rw [List.map_cons, h a (by simp), ih (fun x hx => h x (List.mem_cons_of_mem _ hx))]

theorem selectLoop_take (l : List (String × String)) :
    ∀ (k : Nat) (acc : List ConversationGoal),
      (∀ p ∈ l, p ∈ selectable_pairs) → acc.length < k →
      selectLoop l k acc =
        Except.ok (acc ++ (l.take (k - acc.length)).map resolveGoalPair) := by
  induction l with
  | nil => intro k acc _ _; simp [selectLoop]
  | cons p rest ih =>
    intro k acc hsub hk
    rw [selectLoop_cons p rest k acc (hsub p (by simp))]
    by_cases hstop : k ≤ (acc ++ [resolveGoalPair p]).length
    · rw [if_pos hstop]
      have hk2 : k - acc.length = 1 := by
        simp only [List.length_append, List.length_cons, List.length_nil] at hstop
        omega
      rw [hk2]
      simp
    · rw [if_neg hstop]
      have hlt : (acc ++ [resolveGoalPair p]).length < k := by
        simp only [List.length_append, List.length_cons, List.length_nil] at hstop ⊢
        omega
      rw [ih k _ (fun q hq => hsub q (List.mem_cons_of_mem _ hq)) hlt]
      have hsplit : k - acc.length = (k - (acc ++ [resolveGoalPair p]).length) + 1 := by
        simp only [List.length_append, List.length_cons, List.length_nil] at hstop ⊢
        omega
      rw [List.append_assoc, hsplit, List.take_succ_cons]
      simp

/-- **C10 counterexample** The claim fails as stated for `k = 45`: the
cross-product holds only 44 pairs, so the selection loop returns 44 goals,
not 45. -/
theorem sample_goals_over_pool_counterexample :
    (1 : Int) ≤ 45 ∧
      (match (sample_conversation_goals ⟨0, 0⟩ 0 45).1 with
        | Except.ok gs => gs.length
        | Except.error _ => 0) = 44 ∧ (44 : Nat) ≠ 45 := by
  refine ⟨by decide, ?_, by decide⟩
  decide

/-- **C10 (amended)** `sample_conversation_goals(seed, k)` raises a usage
error for every `k ≤ 0` before performing any sampling (the RNG state is
untouched), and for every `k ≥ 1` it returns exactly `min k 44`
pairwise-distinct (category, specificity) pairs — 44 being the size of the
cross-product of non-sentinel category and specificity codes — each resolved
to a full ConversationGoal via catalog lookup, in the order selected. -/
theorem sample_goals_contract (st : PyRandomState) (seed : Int) (k : Int) :
    (k ≤ 0 → sample_conversation_goals st seed k =
      (Except.error ("Cannot sample " ++ toString k ++ " goals."), st)) ∧
    (1 ≤ k → ∃ ps : List (String × String),
      ps.Nodup ∧ (∀ p ∈ ps, p ∈ selectable_pairs) ∧
      ps.length = min k.toNat selectable_pairs.length ∧
      (sample_conversation_goals st seed k).1 = Except.ok (ps.map resolveGoalPair) ∧
      (ps.map resolveGoalPair).map
        (fun g => (g.category_code.value, g.specificity_code.value)) = ps) := by
  constructor
  · intro hk
    unfold sample_conversation_goals
    rw [if_pos hk]
  · intro hk
    have hperm := pyShuffle_perm selectable_pairs (pySeed seed)
    refine ⟨(pyShuffle selectable_pairs (pySeed seed)).1.take k.toNat, ?_, ?_, ?_, ?_, ?_⟩
    · exact (List.take_sublist _ _).nodup (hperm.symm.nodup selectable_pairs_nodup)
    · intro p hp
      exact hperm.mem_iff.mp (List.take_subset _ _ hp)
    · rw [List.length_take, hperm.length_eq]
    · unfold sample_conversation_goals
      rw [if_neg (by omega : ¬ k ≤ 0)]
      have := selectLoop_take (pyShuffle selectable_pairs (pySeed seed)).1 k.toNat []
        (fun p hp => hperm.mem_iff.mp hp) (by simp; omega)
      simpa using this
    · rw [List.map_map]
      apply map_eq_self_of_mem
      intro p hp
      have hmem := hperm.mem_iff.mp (List.take_subset _ _ hp)
      exact (selectable_pairs_facts p hmem).2.2.2.2.1

/-- **C10 witness** at concrete instantiations: the usage error at `k = -3`,
and the contract at `k = 1`. -/
theorem sample_goals_contract_witness :
    (sample_conversation_goals ⟨0, 0⟩ 7 (-3) =
      (Except.error ("Cannot sample " ++ toString (-3 : Int) ++ " goals."), ⟨0, 0⟩)) ∧
    (∃ ps : List (String × String),
      ps.Nodup ∧ (∀ p ∈ ps, p ∈ selectable_pairs) ∧
      ps.length = min (1 : Int).toNat selectable_pairs.length ∧
      (sample_conversation_goals ⟨0, 0⟩ 7 1).1 = Except.ok (ps.map resolveGoalPair) ∧
      (ps.map resolveGoalPair).map
        (fun g => (g.category_code.value, g.specificity_code.value)) = ps) :=
  ⟨(sample_goals_contract ⟨0, 0⟩ 7 (-3)).1 (by decide),
   (sample_goals_contract ⟨0, 0⟩ 7 1).2 (by decide)⟩

end TP2DG
